import Mathlib

/-!
Shallow embedding of `hack/image-upload.py` from
kubernetes-sigs/cluster-api-provider-vsphere.

The script is a one-shot CLI: it resolves canonical storage/download
locations for an OVA artifact from a build manifest, compares the local
checksum sidecar against the remote checksum object, and either skips or
publishes (authenticate, copy artifact, copy checksum, revoke credential
at interpreter exit).  External effects (file read, HTTP GET, the three
subprocess invocations) are modelled by a `World` of outcomes; `run`
mirrors `main` line by line and produces the list of external events the
run performs together with its final outcome.
-/

namespace ImageUpload

/-- ASCII whitespace characters stripped by Python's str.strip(). -/
def isPySpace (c : Char) : Bool :=
  c = ' ' || c = '\t' || c = '\n' || c = '\r' || c = '\x0b' || c = '\x0c'

/-- Strip leading and trailing whitespace from a character list. -/
def stripCharList (l : List Char) : List Char :=
  ((l.dropWhile isPySpace).reverse.dropWhile isPySpace).reverse

/-- Python's str.strip() with no arguments (whitespace at both ends). -/
def pyStrip (s : String) : String :=
  ⟨stripCharList s.data⟩

/-- The characters of the first line of a file body, including the
terminating newline when present; Python's file.readline(). -/
def readlineChars : List Char → List Char
  | [] => []
  | c :: cs => if c = '\n' then [c] else c :: readlineChars cs

/-- Python's file.readline() on a whole file body given as a string. -/
def readline (s : String) : String :=
  ⟨readlineChars s.data⟩

/-- Embeds get_local_checksum (image-upload.py:133-135).  The sidecar
file is `none` when opening it raises IOError (missing or unreadable),
`some content` otherwise; the function returns the first line stripped. -/
def get_local_checksum (file : Option String) : Option String :=
  file.map fun content => pyStrip (readline content)

/-- Outcome of the single requests.get call: a transport-level failure
(the library raising, e.g. a connection error) or a response carrying a
status code and a body. -/
def HttpResult : Type := Except Unit (Nat × String)

/-- Embeds get_remote_checksum (image-upload.py:126-130).  A 2xx status
returns the stripped body, any other status returns None; the source has
no try/except, so a transport-level failure from requests.get propagates
out of the function (modelled by Except.error). -/
def get_remote_checksum (r : HttpResult) : Except Unit (Option String) :=
  match r with
  | .error e => .error e
  | .ok (status, body) =>
      if 200 ≤ status && status ≤ 299 then .ok (some (pyStrip body))
      else .ok none

/-- ASCII decimal digit, the characters matched by \d on these inputs. -/
def isDigitCh (c : Char) : Bool :=
  '0' ≤ c && c ≤ '9'

/-- Python's re `$` (no re.M): matches at the end of the string or just
before a newline that ends the string. -/
def matchEOL (l : List Char) : Bool :=
  l = [] || l = ['\n']

/-- Consume one or more digits greedily; `none` when the input does not
start with a digit. -/
def matchDigits1 : List Char → Option (List Char)
  | [] => none
  | c :: cs => if isDigitCh c then some (cs.dropWhile isDigitCh) else none

/-- Consume one expected character. -/
def matchChar (c : Char) : List Char → Option (List Char)
  | [] => none
  | d :: ds => if d = c then some ds else none

/-- The `(-\d+)?$` tail of the version regex: an optional dash-and-digits
group followed by end of line.  Greedy digit consumption is equivalent to
backtracking here because a leftover digit can never satisfy `$`. -/
def matchBuildTail : List Char → Bool
  | d :: c :: cs =>
      if d = '-' && isDigitCh c then matchEOL (cs.dropWhile isDigitCh)
      else matchEOL (d :: c :: cs)
  | l => matchEOL l

/-- The `\d+\.\d+\.\d(-\d+)?$` part of the version regex. -/
def matchVersionCore (l : List Char) : Bool :=
  match matchDigits1 l with
  | none => false
  | some l1 =>
    match matchChar '.' l1 with
    | none => false
    | some l2 =>
      match matchDigits1 l2 with
      | none => false
      | some l3 =>
        match matchChar '.' l3 with
        | none => false
        | some l4 =>
          match l4 with
          | [] => false
          | c :: l5 => if isDigitCh c then matchBuildTail l5 else false

/-- Embeds re.match(r'^v?\d+\.\d+\.\d(-\d+)?$', version)
(image-upload.py:77): an optional leading 'v', then the core pattern.
Note the patch component is a single \d in the source, and Python's `$`
also matches before one trailing newline. -/
def releaseVersionMatch (s : String) : Bool :=
  match s.data with
  | [] => matchVersionCore []
  | c :: rest => if c = 'v' then matchVersionCore rest else matchVersionCore (c :: rest)

/-- The derived, immutable destination record: every name, storage path
and public URL computed by main (image-upload.py:67-88). -/
structure Destination where
  ova : String
  ova_sum : String
  rem_ova : String
  upload_dir : String
  gcs_ova : String
  gcs_ova_sum : String
  url_ova : String
  url_ova_sum : String
deriving DecidableEq, Repr

/-- Embeds the destination computation of main (image-upload.py:67-88):
local file names, remote object name, release/ci classification, GCS
storage paths and public download URLs, each built by string formatting
exactly as in the source. -/
def resolve (name version : String) : Destination :=
  let ova := name ++ ".ova"
  let ova_sum := ova ++ ".sha256"
  let rem_ova := name ++ "-kube-" ++ version ++ ".ova"
  let upload_dir := if releaseVersionMatch version then "release" else "ci"
  let gcs_ova := "gs://capv-images/" ++ upload_dir ++ "/" ++ version ++ "/" ++ rem_ova
  let gcs_ova_sum := gcs_ova ++ ".sha256"
  let url_ova :=
    "http://storage.googleapis.com/capv-images/" ++ upload_dir ++ "/" ++ version ++ "/" ++ rem_ova
  let url_ova_sum := url_ova ++ ".sha256"
  ⟨ova, ova_sum, rem_ova, upload_dir, gcs_ova, gcs_ova_sum, url_ova, url_ova_sum⟩

/-- A POSIX path is absolute when it begins with a slash. -/
def isAbsolutePath (p : String) : Bool :=
  match p.data with
  | '/' :: _ => true
  | _ => false

/-- Modelled from the spec and the Python standard library:
os.path.abspath joins a relative path onto the current working directory
(path normalization, immaterial to the claims, is omitted). -/
def abspath (cwd p : String) : String :=
  if isAbsolutePath p then p else cwd ++ "/" ++ p

/-- The two fields of builds[0] that main reads from
packer-manifest.json (image-upload.py:61-63). -/
structure Manifest where
  name : String
  kubernetes_semver : String
deriving DecidableEq, Repr

/-- The parsed command line (image-upload.py:34-47): the positional
build directory and the required --key-file flag. -/
structure Args where
  build_dir : String
  key_file : String
deriving DecidableEq, Repr

/-- Outcomes of the external world consumed by one run.  `sidecar` is
the content of the ova_sum file (`none` when open raises IOError);
`http` is the outcome of the one requests.get; the three Bool fields say
whether each gsutil/gcloud check_call exits 0; `revokeOk` is the exit
status of the gcloud revoke issued via subprocess.call. -/
structure World where
  cwd : String
  manifest : Manifest
  sidecar : Option String
  http : HttpResult
  activateOk : Bool
  cpOvaOk : Bool
  cpSumOk : Bool
  revokeOk : Bool

/-- The externally visible operations a run can perform, in the order it
performs them. -/
inductive Event where
  | chdir (dir : String)
  | readLocal (path : String)
  | httpGet (url : String)
  | activate (keyFile : String)
  | uploadArtifact (src dst : String)
  | uploadChecksum (src dst : String)
  | revoke
deriving DecidableEq, Repr

/-- How one run of the script terminates. -/
inductive Outcome where
  | skip (downloadUrl : String)
  | published (downloadUrl : String)
  | ioError
  | transportError
  | calledProcessError
deriving DecidableEq, Repr

/-- Events that mutate or authenticate against the outside world (the
skip path must perform none of these). -/
def Event.isMutation : Event → Bool
  | .activate _ => true
  | .uploadArtifact _ _ => true
  | .uploadChecksum _ _ => true
  | .revoke => true
  | _ => false

/-- Embeds main (image-upload.py:33-110) plus the atexit semantics of
deactivate_service_account: the absolute key-file path is computed
before chdir; the manifest supplies name and version; the local checksum
read raises IOError fatally; the remote fetch propagates transport
errors; equal checksums skip; otherwise activate (check_call, fatal on
failure, atexit-registers the revoke), copy the OVA then its checksum
(each check_call, fatal on failure), and the registered revoke runs at
interpreter exit on every path after successful activation, its exit
status discarded (subprocess.call). -/
def run (args : Args) (w : World) : List Event × Outcome :=
  let key_file := abspath w.cwd args.key_file
  let d := resolve w.manifest.name w.manifest.kubernetes_semver
  let ev0 := [Event.chdir args.build_dir, Event.readLocal d.ova_sum]
  match get_local_checksum w.sidecar with
  | none => (ev0, Outcome.ioError)
  | some lcl =>
    let ev1 := ev0 ++ [Event.httpGet d.url_ova_sum]
    match get_remote_checksum w.http with
    | .error _ => (ev1, Outcome.transportError)
    | .ok rem =>
      if some lcl = rem then
        (ev1, Outcome.skip d.url_ova)
      else
        let ev2 := ev1 ++ [Event.activate key_file]
        if w.activateOk then
          let ev3 := ev2 ++ [Event.uploadArtifact d.ova d.gcs_ova]
          if w.cpOvaOk then
            let ev4 := ev3 ++ [Event.uploadChecksum d.ova_sum d.gcs_ova_sum]
            if w.cpSumOk then
              (ev4 ++ [Event.revoke], Outcome.published d.url_ova)
            else
              (ev4 ++ [Event.revoke], Outcome.calledProcessError)
          else
            (ev3 ++ [Event.revoke], Outcome.calledProcessError)
        else
          (ev2, Outcome.calledProcessError)

/-- A sample manifest for concrete evaluations. -/
def demoManifest : Manifest := ⟨"photon-3", "v1.17.3"⟩

/-- A sample command line for concrete evaluations. -/
def demoArgs : Args := ⟨"./output", "keys/svc.json"⟩

/-- A world whose remote checksum equals the local one (skip path). -/
def demoSkipWorld : World :=
  ⟨"/home/op", demoManifest, some "abc123\n", Except.ok (200, "abc123\n"),
   true, true, true, true⟩

/-- A world whose remote checksum object is missing (publish path). -/
def demoPublishWorld : World :=
  ⟨"/home/op", demoManifest, some "abc123\n", Except.ok (404, "not found"),
   true, true, true, true⟩

/-- A publish world whose artifact copy fails. -/
def demoCpFailWorld : World := { demoPublishWorld with cpOvaOk := false }

/-- A publish world whose credential activation fails. -/
def demoAuthFailWorld : World := { demoPublishWorld with activateOk := false }

/-- A world whose HTTP GET fails at the transport level. -/
def demoTransportWorld : World := { demoPublishWorld with http := Except.error () }

/-- A world whose checksum sidecar file is missing. -/
def demoNoSidecarWorld : World := { demoPublishWorld with sidecar := none }

/-- A world with an empty sidecar file and a 2xx remote body that strips
to the empty string. -/
def demoEmptyWorld : World :=
  { demoPublishWorld with sidecar := some "", http := Except.ok (200, "\n") }

/-- Scan of an event trace: true when no checksum upload occurs before
the first artifact upload (in particular no checksum upload at all when
no artifact upload happens). -/
def checksumAfterArtifact : List Event → Bool
  | [] => true
  | .uploadChecksum _ _ :: _ => false
  | .uploadArtifact _ _ :: _ => true
  | _ :: rest => checksumAfterArtifact rest

/-- Modelled from the claim's wording, not from the source: the part
after the optional leading v of the pattern "one or more digits, dot,
one or more digits, dot, one or more digits, optionally a dash and one
or more digits", anchored strictly at the end of the string. -/
def claimedCore (l : List Char) : Bool :=
  match matchDigits1 l with
  | none => false
  | some l1 =>
    match matchChar '.' l1 with
    | none => false
    | some l2 =>
      match matchDigits1 l2 with
      | none => false
      | some l3 =>
        match matchChar '.' l3 with
        | none => false
        | some l4 =>
          match matchDigits1 l4 with
          | none => false
          | some l5 =>
            match l5 with
            | [] => true
            | d :: l6 =>
              if d = '-' then
                match matchDigits1 l6 with
                | some [] => true
                | _ => false
              else false

/-- Modelled from the claim's wording, not from the source: optional
leading v, then the claimed core pattern, required to cover the entire
version string. -/
def claimedReleasePattern (s : String) : Bool :=
  match s.data with
  | [] => claimedCore []
  | c :: rest => if c = 'v' then claimedCore rest else claimedCore (c :: rest)

/-- A nonempty run of ASCII digits. -/
def DigitStr (l : List Char) : Prop :=
  l ≠ [] ∧ ∀ c ∈ l, isDigitCh c = true

/-- The characters contributed by the optional dash-and-build group. -/
def buildChars : Option (List Char) → List Char
  | some b => '-' :: b
  | none => []

/-- Declarative form of the `(-\d+)?$` tail: an optional dash and
nonempty digit run, then nothing or a single trailing newline. -/
def TailShape (l : List Char) : Prop :=
  ∃ build nl, (∀ b, build = some b → DigitStr b) ∧
    (nl = [] ∨ nl = ['\n']) ∧ l = buildChars build ++ nl

/-- Declarative form of `\d+\.\d+\.\d(-\d+)?$`: digits, dot, digits,
dot, exactly one digit, then a tail. -/
def CoreShape (l : List Char) : Prop :=
  ∃ maj minr p build nl,
    DigitStr maj ∧ DigitStr minr ∧ isDigitCh p = true ∧
    (∀ b, build = some b → DigitStr b) ∧ (nl = [] ∨ nl = ['\n']) ∧
    l = maj ++ '.' :: (minr ++ '.' :: p :: (buildChars build ++ nl))

/-- Declarative form of the version strings the source regex accepts:
an optional leading v followed by a core-shaped remainder. -/
def ReleaseShape (v : String) : Prop :=
  ∃ (optV : Bool) (core : List Char),
    CoreShape core ∧ v.data = (cond optV ['v'] []) ++ core

/-- Abbreviation for the destination a run resolves. -/
def World.dest (w : World) : Destination :=
  resolve w.manifest.name w.manifest.kubernetes_semver

theorem run_eq_ioError (args : Args) (w : World)
    (hl : get_local_checksum w.sidecar = none) :
    run args w =
      ([.chdir args.build_dir, .readLocal w.dest.ova_sum], .ioError) := by
  simp [run, World.dest, hl]

theorem run_eq_transport (args : Args) (w : World) (lcl : String)
    (hl : get_local_checksum w.sidecar = some lcl)
    (hr : get_remote_checksum w.http = Except.error ()) :
    run args w =
      ([.chdir args.build_dir, .readLocal w.dest.ova_sum,
        .httpGet w.dest.url_ova_sum], .transportError) := by
  simp [run, World.dest, hl, hr]

theorem run_eq_skip (args : Args) (w : World) (lcl : String)
    (hl : get_local_checksum w.sidecar = some lcl)
    (hr : get_remote_checksum w.http = Except.ok (some lcl)) :
    run args w =
      ([.chdir args.build_dir, .readLocal w.dest.ova_sum,
        .httpGet w.dest.url_ova_sum], .skip w.dest.url_ova) := by
  simp [run, World.dest, hl, hr]

theorem run_eq_authFail (args : Args) (w : World) (lcl : String)
    (rem : Option String)
    (hl : get_local_checksum w.sidecar = some lcl)
    (hr : get_remote_checksum w.http = Except.ok rem)
    (hne : rem ≠ some lcl)
    (ha : w.activateOk = false) :
    run args w =
      ([.chdir args.build_dir, .readLocal w.dest.ova_sum,
        .httpGet w.dest.url_ova_sum,
        .activate (abspath w.cwd args.key_file)], .calledProcessError) := by
  simp [run, World.dest, hl, hr, Ne.symm hne, ha]

theorem run_eq_cpOvaFail (args : Args) (w : World) (lcl : String)
    (rem : Option String)
    (hl : get_local_checksum w.sidecar = some lcl)
    (hr : get_remote_checksum w.http = Except.ok rem)
    (hne : rem ≠ some lcl)
    (ha : w.activateOk = true)
    (ho : w.cpOvaOk = false) :
    run args w =
      ([.chdir args.build_dir, .readLocal w.dest.ova_sum,
        .httpGet w.dest.url_ova_sum,
        .activate (abspath w.cwd args.key_file),
        .uploadArtifact w.dest.ova w.dest.gcs_ova,
        .revoke], .calledProcessError) := by
  simp [run, World.dest, hl, hr, Ne.symm hne, ha, ho]

theorem run_eq_cpSumFail (args : Args) (w : World) (lcl : String)
    (rem : Option String)
    (hl : get_local_checksum w.sidecar = some lcl)
    (hr : get_remote_checksum w.http = Except.ok rem)
    (hne : rem ≠ some lcl)
    (ha : w.activateOk = true)
    (ho : w.cpOvaOk = true)
    (hs : w.cpSumOk = false) :
    run args w =
      ([.chdir args.build_dir, .readLocal w.dest.ova_sum,
        .httpGet w.dest.url_ova_sum,
        .activate (abspath w.cwd args.key_file),
        .uploadArtifact w.dest.ova w.dest.gcs_ova,
        .uploadChecksum w.dest.ova_sum w.dest.gcs_ova_sum,
        .revoke], .calledProcessError) := by
  simp [run, World.dest, hl, hr, Ne.symm hne, ha, ho, hs]

theorem run_eq_published (args : Args) (w : World) (lcl : String)
    (rem : Option String)
    (hl : get_local_checksum w.sidecar = some lcl)
    (hr : get_remote_checksum w.http = Except.ok rem)
    (hne : rem ≠ some lcl)
    (ha : w.activateOk = true)
    (ho : w.cpOvaOk = true)
    (hs : w.cpSumOk = true) :
    run args w =
      ([.chdir args.build_dir, .readLocal w.dest.ova_sum,
        .httpGet w.dest.url_ova_sum,
        .activate (abspath w.cwd args.key_file),
        .uploadArtifact w.dest.ova w.dest.gcs_ova,
        .uploadChecksum w.dest.ova_sum w.dest.gcs_ova_sum,
        .revoke], .published w.dest.url_ova) := by
  simp [run, World.dest, hl, hr, Ne.symm hne, ha, ho, hs]

/-- Exhaustive case analysis of a run: exactly one of the seven branches
of main happens, and in each the full event trace and outcome are
determined. -/
theorem run_cases (args : Args) (w : World) :
    (get_local_checksum w.sidecar = none ∧
      run args w = ([.chdir args.build_dir, .readLocal w.dest.ova_sum], .ioError)) ∨
    (∃ lcl, get_local_checksum w.sidecar = some lcl ∧
      ((get_remote_checksum w.http = Except.error () ∧
        run args w = ([.chdir args.build_dir, .readLocal w.dest.ova_sum,
          .httpGet w.dest.url_ova_sum], .transportError)) ∨
       (get_remote_checksum w.http = Except.ok (some lcl) ∧
        run args w = ([.chdir args.build_dir, .readLocal w.dest.ova_sum,
          .httpGet w.dest.url_ova_sum], .skip w.dest.url_ova)) ∨
       (∃ rem, get_remote_checksum w.http = Except.ok rem ∧ rem ≠ some lcl ∧
         ((w.activateOk = false ∧
           run args w = ([.chdir args.build_dir, .readLocal w.dest.ova_sum,
             .httpGet w.dest.url_ova_sum,
             .activate (abspath w.cwd args.key_file)], .calledProcessError)) ∨
          (w.activateOk = true ∧ w.cpOvaOk = false ∧
           run args w = ([.chdir args.build_dir, .readLocal w.dest.ova_sum,
             .httpGet w.dest.url_ova_sum,
             .activate (abspath w.cwd args.key_file),
             .uploadArtifact w.dest.ova w.dest.gcs_ova,
             .revoke], .calledProcessError)) ∨
          (w.activateOk = true ∧ w.cpOvaOk = true ∧ w.cpSumOk = false ∧
           run args w = ([.chdir args.build_dir, .readLocal w.dest.ova_sum,
             .httpGet w.dest.url_ova_sum,
             .activate (abspath w.cwd args.key_file),
             .uploadArtifact w.dest.ova w.dest.gcs_ova,
             .uploadChecksum w.dest.ova_sum w.dest.gcs_ova_sum,
             .revoke], .calledProcessError)) ∨
          (w.activateOk = true ∧ w.cpOvaOk = true ∧ w.cpSumOk = true ∧
           run args w = ([.chdir args.build_dir, .readLocal w.dest.ova_sum,
             .httpGet w.dest.url_ova_sum,
             .activate (abspath w.cwd args.key_file),
             .uploadArtifact w.dest.ova w.dest.gcs_ova,
             .uploadChecksum w.dest.ova_sum w.dest.gcs_ova_sum,
             .revoke], .published w.dest.url_ova)))))) := by
  cases hl : get_local_checksum w.sidecar with
  | none => exact Or.inl ⟨rfl, run_eq_ioError args w hl⟩
  | some lcl =>
    refine Or.inr ⟨lcl, rfl, ?_⟩
    cases hr : get_remote_checksum w.http with
    | error e =>
      cases e
      exact Or.inl ⟨rfl, run_eq_transport args w lcl hl hr⟩
    | ok rem =>
      by_cases heq : rem = some lcl
      · subst heq
        exact Or.inr (Or.inl ⟨rfl, run_eq_skip args w lcl hl hr⟩)
      · refine Or.inr (Or.inr ⟨rem, rfl, heq, ?_⟩)
        cases ha : w.activateOk with
        | false => exact Or.inl ⟨rfl, run_eq_authFail args w lcl rem hl hr heq ha⟩
        | true =>
          cases ho : w.cpOvaOk with
          | false =>
            exact Or.inr (Or.inl ⟨rfl, rfl, run_eq_cpOvaFail args w lcl rem hl hr heq ha ho⟩)
          | true =>
            cases hs : w.cpSumOk with
            | false =>
              exact Or.inr (Or.inr (Or.inl
                ⟨rfl, rfl, rfl, run_eq_cpSumFail args w lcl rem hl hr heq ha ho hs⟩))
            | true =>
              exact Or.inr (Or.inr (Or.inr
                ⟨rfl, rfl, rfl, run_eq_published args w lcl rem hl hr heq ha ho hs⟩))

/-- C1: the publish/skip decision is gated solely by string equality of
the local and remote checksum values: when the remote checksum is
present and equals the local one the run skips, reporting the canonical
download URL and performing no authentication, upload or revocation;
otherwise (in particular whenever the remote checksum is absent) it
proceeds to the publish path. -/
theorem C1_checksum_gate (args : Args) (w : World) (lcl : String)
    (rem : Option String)
    (hl : get_local_checksum w.sidecar = some lcl)
    (hr : get_remote_checksum w.http = Except.ok rem) :
    (rem = some lcl →
      (run args w).2 = Outcome.skip w.dest.url_ova ∧
      ∀ e ∈ (run args w).1, e.isMutation = false) ∧
    (rem ≠ some lcl →
      Event.activate (abspath w.cwd args.key_file) ∈ (run args w).1) := by
  constructor
  · intro hEq
    subst hEq
    rw [run_eq_skip args w lcl hl hr]
    refine ⟨rfl, ?_⟩
    intro e he
    simp only [List.mem_cons, List.not_mem_nil, or_false] at he
    rcases he with h | h | h <;> subst h <;> rfl
  · intro hNe
    cases ha : w.activateOk with
    | false =>
      rw [run_eq_authFail args w lcl rem hl hr hNe ha]; simp
    | true =>
      cases ho : w.cpOvaOk with
      | false =>
        rw [run_eq_cpOvaFail args w lcl rem hl hr hNe ha ho]; simp
      | true =>
        cases hs : w.cpSumOk with
        | false =>
          rw [run_eq_cpSumFail args w lcl rem hl hr hNe ha ho hs]; simp
        | true =>
          rw [run_eq_published args w lcl rem hl hr hNe ha ho hs]; simp

/-- Witness for C1: a concrete world with equal checksums skips, and a
concrete world with an absent remote checksum reaches authentication. -/
theorem C1_checksum_gate_witness :
    (run demoArgs demoSkipWorld).2 = Outcome.skip demoSkipWorld.dest.url_ova ∧
    Event.activate (abspath demoPublishWorld.cwd demoArgs.key_file) ∈
      (run demoArgs demoPublishWorld).1 := by
  constructor
  · exact ((C1_checksum_gate demoArgs demoSkipWorld "abc123" (some "abc123")
      rfl rfl).1 rfl).1
  · exact (C1_checksum_gate demoArgs demoPublishWorld "abc123" none
      rfl rfl).2 (by simp)

/-- C2: the artifact copy is invoked strictly before the checksum copy,
and a failing artifact copy means the checksum copy is never invoked and
the run aborts with the transfer tool's failure. -/
theorem C2_upload_order (args : Args) (w : World) :
    checksumAfterArtifact (run args w).1 = true ∧
    (w.cpOvaOk = false →
      (∀ s d, Event.uploadChecksum s d ∉ (run args w).1) ∧
      ((∃ s d, Event.uploadArtifact s d ∈ (run args w).1) →
        (run args w).2 = Outcome.calledProcessError)) := by
  rcases run_cases args w with
    ⟨_, hrun⟩ |
    ⟨lcl, _, ⟨_, hrun⟩ | ⟨_, hrun⟩ |
      ⟨rem, _, _, ⟨_, hrun⟩ | ⟨_, ho, hrun⟩ | ⟨_, ho, _, hrun⟩ | ⟨_, ho, _, hrun⟩⟩⟩ <;>
    rw [hrun] <;> simp [checksumAfterArtifact]
  · exact ho
  · exact ho

/-- Witness for C2: in a concrete world whose artifact copy fails, the
checksum copy is absent from the trace and the run aborts. -/
theorem C2_upload_order_witness :
    Event.uploadChecksum demoCpFailWorld.dest.ova_sum
        demoCpFailWorld.dest.gcs_ova_sum ∉ (run demoArgs demoCpFailWorld).1 ∧
    (run demoArgs demoCpFailWorld).2 = Outcome.calledProcessError := by
  have h := (C2_upload_order demoArgs demoCpFailWorld).2 rfl
  exact ⟨h.1 _ _, h.2 ⟨demoCpFailWorld.dest.ova, demoCpFailWorld.dest.gcs_ova, by decide⟩⟩

/-- Any non-2xx status makes get_remote_checksum report an absent
checksum. -/
theorem get_remote_checksum_non2xx (s : Nat) (b : String)
    (h : ¬(200 ≤ s ∧ s ≤ 299)) :
    get_remote_checksum (Except.ok (s, b)) = Except.ok none := by
  have hc : ¬((200 ≤ s && s ≤ 299) = true) := by
    simpa [Bool.and_eq_true, decide_eq_true_eq] using h
  simp [get_remote_checksum, hc]

/-- The three events preceding the publish/skip decision mutate
nothing. -/
theorem preDecision_no_mutation (a b c : String) :
    ∀ e ∈ [Event.chdir a, Event.readLocal b, Event.httpGet c],
      e.isMutation = false := by
  intro e he
  simp only [List.mem_cons, List.not_mem_nil, or_false] at he
  rcases he with h | h | h <;> subst h <;> rfl

/-- The run depends on the HTTP outcome only through
get_remote_checksum. -/
theorem run_http_congr (args : Args) (w : World) (h1 h2 : HttpResult)
    (h : get_remote_checksum h1 = get_remote_checksum h2) :
    run args { w with http := h1 } = run args { w with http := h2 } := by
  unfold run
  dsimp only
  rw [h]

/-- C3 counterexample: at a concrete world whose HTTP GET fails at the
transport level, get_remote_checksum does not return an absent checksum;
the failure propagates and the run aborts before any authentication or
upload, contrary to the claim that a connection failure is treated
identically to a 404 and never aborts the run. -/
theorem C3_counterexample :
    get_remote_checksum demoTransportWorld.http ≠ Except.ok none ∧
    (run demoArgs demoTransportWorld).2 = Outcome.transportError ∧
    Event.activate (abspath demoTransportWorld.cwd demoArgs.key_file) ∉
      (run demoArgs demoTransportWorld).1 := by
  refine ⟨?_, ?_, ?_⟩
  · simp [demoTransportWorld, demoPublishWorld, get_remote_checksum]
  · decide
  · decide

/-- C3 amended: a 2xx response returns the body stripped of surrounding
whitespace; every non-2xx status is treated as an absent checksum, and
any two non-2xx responses (e.g. a 500 and a 404) make the run behave
identically; but a transport-level failure is not caught: it propagates
out of get_remote_checksum and aborts the run (before any
authentication or upload) instead of being treated as absent. -/
theorem C3_remote_tolerance (args : Args) (w : World) :
    (∀ status body, 200 ≤ status → status ≤ 299 →
      get_remote_checksum (Except.ok (status, body)) =
        Except.ok (some (pyStrip body))) ∧
    (∀ s b t c, ¬(200 ≤ s ∧ s ≤ 299) → ¬(200 ≤ t ∧ t ≤ 299) →
      run args { w with http := Except.ok (s, b) } =
        run args { w with http := Except.ok (t, c) }) ∧
    (∀ lcl, get_local_checksum w.sidecar = some lcl →
      (run args { w with http := Except.error () }).2 =
        Outcome.transportError ∧
      ∀ e ∈ (run args { w with http := Except.error () }).1,
        e.isMutation = false) := by
  refine ⟨?_, ?_, ?_⟩
  · intro status body h1 h2
    simp [get_remote_checksum, h1, h2]
  · intro s b t c hs ht
    exact run_http_congr args w _ _ (by
      rw [get_remote_checksum_non2xx s b hs, get_remote_checksum_non2xx t c ht])
  · intro lcl hl
    rw [run_eq_transport args { w with http := Except.error () } lcl hl rfl]
    exact ⟨rfl, preDecision_no_mutation _ _ _⟩

/-- Witness for C3's amended statement at concrete statuses: 200 returns
the stripped body, a 500 run equals a 404 run, and a transport failure
aborts. -/
theorem C3_remote_tolerance_witness :
    get_remote_checksum (Except.ok (200, "abc123\n")) =
      Except.ok (some "abc123") ∧
    run demoArgs { demoPublishWorld with http := Except.ok (500, "oops") } =
      run demoArgs { demoPublishWorld with http := Except.ok (404, "not found") } ∧
    (run demoArgs { demoPublishWorld with http := Except.error () }).2 =
      Outcome.transportError := by
  have h := C3_remote_tolerance demoArgs demoPublishWorld
  exact ⟨h.1 200 "abc123\n" (by decide) (by decide),
         h.2.1 500 "oops" 404 "not found" (by decide) (by decide),
         (h.2.2 "abc123" rfl).1⟩

/-- C5: the de-authentication step runs whenever activation succeeded,
regardless of how the uploads fared; when activation itself fails the
run aborts and no de-authentication is attempted. -/
theorem C5_deauth_scope (args : Args) (w : World)
    (hact : Event.activate (abspath w.cwd args.key_file) ∈ (run args w).1) :
    (w.activateOk = true → Event.revoke ∈ (run args w).1) ∧
    (w.activateOk = false →
      (run args w).2 = Outcome.calledProcessError ∧
      Event.revoke ∉ (run args w).1) := by
  rcases run_cases args w with
    ⟨_, hrun⟩ |
    ⟨lcl, _, ⟨_, hrun⟩ | ⟨_, hrun⟩ |
      ⟨rem, _, _, ⟨ha, hrun⟩ | ⟨ha, _, hrun⟩ | ⟨ha, _, _, hrun⟩ |
        ⟨ha, _, _, hrun⟩⟩⟩ <;>
    rw [hrun] at hact ⊢ <;> simp_all

/-- Witness for C5: with a concrete publish world the revoke runs, and
with a concrete failed-activation world the run aborts with no
revoke. -/
theorem C5_deauth_scope_witness :
    Event.revoke ∈ (run demoArgs demoPublishWorld).1 ∧
    (run demoArgs demoAuthFailWorld).2 = Outcome.calledProcessError ∧
    Event.revoke ∉ (run demoArgs demoAuthFailWorld).1 := by
  refine ⟨(C5_deauth_scope demoArgs demoPublishWorld (by decide)).1 rfl, ?_⟩
  exact (C5_deauth_scope demoArgs demoAuthFailWorld (by decide)).2 rfl

/-- C6: the local checksum is the first line of the sidecar file
stripped of whitespace; a missing or unreadable sidecar is fatal and the
run aborts before any authentication or upload. -/
theorem C6_local_checksum_fatal (args : Args) (w : World) :
    (∀ content, w.sidecar = some content →
      get_local_checksum w.sidecar = some (pyStrip (readline content))) ∧
    (w.sidecar = none →
      run args w =
        ([.chdir args.build_dir, .readLocal w.dest.ova_sum], .ioError) ∧
      ∀ e ∈ (run args w).1, e.isMutation = false) := by
  constructor
  · intro content hc
    rw [hc]; rfl
  · intro hn
    have hl : get_local_checksum w.sidecar = none := by rw [hn]; rfl
    have hrun := run_eq_ioError args w hl
    refine ⟨hrun, ?_⟩
    rw [hrun]
    intro e he
    simp only [List.mem_cons, List.not_mem_nil, or_false] at he
    rcases he with h | h <;> subst h <;> rfl

/-- Witness for C6: a concrete readable sidecar yields its stripped
first line, and a concrete missing sidecar aborts with IOError. -/
theorem C6_local_checksum_fatal_witness :
    get_local_checksum demoSkipWorld.sidecar = some (pyStrip (readline "abc123\n")) ∧
    run demoArgs demoNoSidecarWorld =
      ([.chdir demoArgs.build_dir, .readLocal demoNoSidecarWorld.dest.ova_sum],
       .ioError) := by
  refine ⟨(C6_local_checksum_fatal demoArgs demoSkipWorld).1 "abc123\n" rfl, ?_⟩
  exact ((C6_local_checksum_fatal demoArgs demoNoSidecarWorld).2 rfl).1

/-- C7: destination resolution is a pure function of (name, version):
the artifact object name is {name}-kube-{version}.ova, the checksum
object name appends .sha256, storage path and public URL share the same
classification/version/object components rooted at the fixed bucket and
the fixed public host, the classification is release or ci, and two
resolutions of the same inputs are identical. -/
theorem C7_destination_resolution (name version : String) :
    (resolve name version).rem_ova = name ++ "-kube-" ++ version ++ ".ova" ∧
    (resolve name version).gcs_ova =
      "gs://capv-images/" ++ (resolve name version).upload_dir ++ "/" ++
        version ++ "/" ++ (resolve name version).rem_ova ∧
    (resolve name version).gcs_ova_sum = (resolve name version).gcs_ova ++ ".sha256" ∧
    (resolve name version).url_ova =
      "http://storage.googleapis.com/capv-images/" ++
        (resolve name version).upload_dir ++ "/" ++ version ++ "/" ++
        (resolve name version).rem_ova ∧
    (resolve name version).url_ova_sum = (resolve name version).url_ova ++ ".sha256" ∧
    ((resolve name version).upload_dir = "release" ∨
      (resolve name version).upload_dir = "ci") ∧
    resolve name version = resolve name version := by
  cases hrv : releaseVersionMatch version <;> simp [resolve, hrv]

/-- C8: the de-authentication exit status is discarded
(subprocess.call): the trace and the outcome of a run are identical
whatever the revoke's exit status, so a revoke failure never raises,
never changes the exit status, and never masks a successful upload. -/
theorem C8_revoke_ignored (args : Args) (w : World) (b : Bool) :
    run args { w with revokeOk := b } = run args w := rfl

/-- C9: the key-file path is made absolute against the directory the
tool was invoked from, before the working directory changes to the build
directory: any activation event carries abspath of the invocation cwd,
a relative key file resolves against the invocation cwd, and the carried
path is unchanged under any choice of build directory. -/
theorem C9_keyfile_resolution (args : Args) (w : World) (k : String)
    (hact : Event.activate k ∈ (run args w).1) :
    k = abspath w.cwd args.key_file ∧
    (isAbsolutePath args.key_file = false →
      k = w.cwd ++ "/" ++ args.key_file) ∧
    ∀ bd, Event.activate k ∈ (run { args with build_dir := bd } w).1 := by
  rcases run_cases args w with
    ⟨_, hrun⟩ |
    ⟨lcl, hl, ⟨hr, hrun⟩ | ⟨hr, hrun⟩ |
      ⟨rem, hr, hne, ⟨ha, hrun⟩ | ⟨ha, ho, hrun⟩ | ⟨ha, ho, hs, hrun⟩ |
        ⟨ha, ho, hs, hrun⟩⟩⟩
  · rw [hrun] at hact; simp at hact
  · rw [hrun] at hact; simp at hact
  · rw [hrun] at hact; simp at hact
  · rw [hrun] at hact
    simp at hact
    subst hact
    refine ⟨rfl, fun hrel => by simp [abspath, hrel], fun bd => ?_⟩
    rw [run_eq_authFail { args with build_dir := bd } w lcl rem hl hr hne ha]
    simp
  · rw [hrun] at hact
    simp at hact
    subst hact
    refine ⟨rfl, fun hrel => by simp [abspath, hrel], fun bd => ?_⟩
    rw [run_eq_cpOvaFail { args with build_dir := bd } w lcl rem hl hr hne ha ho]
    simp
  · rw [hrun] at hact
    simp at hact
    subst hact
    refine ⟨rfl, fun hrel => by simp [abspath, hrel], fun bd => ?_⟩
    rw [run_eq_cpSumFail { args with build_dir := bd } w lcl rem hl hr hne ha ho hs]
    simp
  · rw [hrun] at hact
    simp at hact
    subst hact
    refine ⟨rfl, fun hrel => by simp [abspath, hrel], fun bd => ?_⟩
    rw [run_eq_published { args with build_dir := bd } w lcl rem hl hr hne ha ho hs]
    simp

/-- Witness for C9: in a concrete publish run the activated key file is
the invocation cwd joined with the relative --key-file value, and the
same event appears under a different build directory. -/
theorem C9_keyfile_resolution_witness :
    ("/home/op" ++ "/" ++ "keys/svc.json") =
      abspath demoPublishWorld.cwd demoArgs.key_file ∧
    Event.activate ("/home/op" ++ "/" ++ "keys/svc.json") ∈
      (run { demoArgs with build_dir := "/tmp/other" } demoPublishWorld).1 := by
  have h := C9_keyfile_resolution demoArgs demoPublishWorld
    ("/home/op" ++ "/" ++ "keys/svc.json") (by decide)
  exact ⟨h.1, h.2.2 "/tmp/other"⟩

/-- C10: an existing sidecar file that is empty (or whose first line is
all whitespace) yields the empty-string checksum rather than an error;
and when the remote returns 2xx with a body stripping to the empty
string, the two empty checksums compare equal and the run skips with no
mutation. -/
theorem C10_empty_checksum_skips (args : Args) (w : World)
    (content body : String) (status : Nat)
    (hc : w.sidecar = some content)
    (hfirst : pyStrip (readline content) = "")
    (hh : w.http = Except.ok (status, body))
    (h200 : 200 ≤ status) (h299 : status ≤ 299)
    (hbody : pyStrip body = "") :
    get_local_checksum w.sidecar = some "" ∧
    (run args w).2 = Outcome.skip w.dest.url_ova ∧
    ∀ e ∈ (run args w).1, e.isMutation = false := by
  have hl : get_local_checksum w.sidecar = some "" := by
    rw [hc]
    simp [get_local_checksum, hfirst]
  have hr : get_remote_checksum w.http = Except.ok (some "") := by
    rw [hh]
    simp [get_remote_checksum, h200, h299, hbody]
  refine ⟨hl, ?_, ?_⟩
  · rw [run_eq_skip args w "" hl hr]
  · rw [run_eq_skip args w "" hl hr]
    exact preDecision_no_mutation _ _ _

/-- Witness for C10: a concrete world with an empty sidecar file and a
2xx whitespace-only remote body skips. -/
theorem C10_empty_checksum_skips_witness :
    get_local_checksum demoEmptyWorld.sidecar = some "" ∧
    (run demoArgs demoEmptyWorld).2 = Outcome.skip demoEmptyWorld.dest.url_ova := by
  have h := C10_empty_checksum_skips demoArgs demoEmptyWorld "" "\n" 200
    rfl rfl rfl (by decide) (by decide) rfl
  exact ⟨h.1, h.2.1⟩

/-- The head of a dropWhile result never satisfies the predicate. -/
theorem dropWhile_head_not (p : Char → Bool) (l : List Char) :
    ∀ c cs, l.dropWhile p = c :: cs → p c = false := by
  induction l with
  | nil =>
    intro c cs h
    simp at h
  | cons a as ih =>
    intro c cs h
    by_cases hp : p a
    · rw [List.dropWhile_cons_of_pos hp] at h
      exact ih c cs h
    · rw [List.dropWhile_cons_of_neg hp] at h
      injection h with h1 _
      subst h1
      simpa using hp

/-- dropWhile consumes exactly a leading block of satisfying elements
when the remainder starts with a failing element. -/
theorem dropWhile_append_of_forall (p : Char → Bool) (d r : List Char)
    (hd : ∀ c ∈ d, p c = true)
    (hr : ∀ c cs, r = c :: cs → p c = false) :
    (d ++ r).dropWhile p = r := by
  induction d with
  | nil =>
    cases hrr : r with
    | nil => simp
    | cons c cs =>
      subst hrr
      rw [List.nil_append, List.dropWhile_cons_of_neg (by simp [hr c cs rfl])]
  | cons a as ih =>
    rw [List.cons_append, List.dropWhile_cons_of_pos (by simp [hd a (by simp)])]
    exact ih (fun c hc => hd c (by simp [hc]))

/-- The end-of-line matcher accepts exactly the empty remainder and the
lone trailing newline. -/
theorem matchEOL_iff (l : List Char) :
    matchEOL l = true ↔ (l = [] ∨ l = ['\n']) := by
  simp [matchEOL]

/-- Characterization of the single-character matcher. -/
theorem matchChar_eq_some (c : Char) (l r : List Char) :
    matchChar c l = some r ↔ l = c :: r := by
  cases l with
  | nil => simp [matchChar]
  | cons d ds =>
    by_cases h : d = c
    · subst h
      simp [matchChar]
    · simp [matchChar, h]

/-- Characterization of the greedy one-or-more-digits matcher. -/
theorem matchDigits1_eq_some (l r : List Char) :
    matchDigits1 l = some r ↔
      ∃ d, DigitStr d ∧ l = d ++ r ∧
        ∀ c cs, r = c :: cs → isDigitCh c = false := by
  constructor
  · intro h
    cases l with
    | nil => simp [matchDigits1] at h
    | cons a as =>
      by_cases ha : isDigitCh a = true
      · rw [matchDigits1, if_pos ha] at h
        injection h with h
        refine ⟨a :: as.takeWhile isDigitCh, ⟨by simp, ?_⟩, ?_, ?_⟩
        · intro c hc
          rcases List.mem_cons.mp hc with rfl | hc
          · exact ha
          · exact List.mem_takeWhile_imp hc
        · rw [List.cons_append, ← h, List.takeWhile_append_dropWhile]
        · intro c cs hcs
          exact dropWhile_head_not isDigitCh as c cs (h.trans hcs)
      · rw [matchDigits1, if_neg ha] at h
        exact absurd h (by simp)
  · rintro ⟨d, ⟨hne, hdig⟩, rfl, hhead⟩
    cases d with
    | nil => exact absurd rfl hne
    | cons a as =>
      rw [List.cons_append, matchDigits1, if_pos (hdig a (by simp))]
      rw [dropWhile_append_of_forall isDigitCh as r
        (fun c hc => hdig c (by simp [hc])) hhead]

/-- The build-tail matcher accepts exactly the tails of TailShape. -/
theorem matchBuildTail_iff (l : List Char) :
    matchBuildTail l = true ↔ TailShape l := by
  constructor
  · intro h
    rcases l with _ | ⟨d, _ | ⟨c, cs⟩⟩
    · exact ⟨none, [], by simp, Or.inl rfl, rfl⟩
    · rw [show matchBuildTail [d] = matchEOL [d] from rfl, matchEOL_iff] at h
      rcases h with h | h
      · simp at h
      · injection h with h1 _
        subst h1
        exact ⟨none, ['\n'], by simp, Or.inr rfl, rfl⟩
    · rw [show matchBuildTail (d :: c :: cs) =
          (if d = '-' && isDigitCh c then matchEOL (cs.dropWhile isDigitCh)
           else matchEOL (d :: c :: cs)) from rfl] at h
      by_cases hcond : (d = '-' && isDigitCh c) = true
      · rw [if_pos hcond, matchEOL_iff] at h
        obtain ⟨hd, hdig⟩ := Bool.and_eq_true_iff.mp hcond
        have hd' : d = '-' := by simpa [decide_eq_true_eq] using hd
        subst hd'
        refine ⟨some (c :: cs.takeWhile isDigitCh), cs.dropWhile isDigitCh,
          ?_, h, ?_⟩
        · intro b hb
          injection hb with hb
          subst hb
          refine ⟨by simp, fun x hx => ?_⟩
          rcases List.mem_cons.mp hx with rfl | hx
          · exact hdig
          · exact List.mem_takeWhile_imp hx
        · show '-' :: c :: cs = ('-' :: c :: cs.takeWhile isDigitCh) ++ cs.dropWhile isDigitCh
          rw [List.cons_append, List.cons_append, List.takeWhile_append_dropWhile]
      · rw [if_neg hcond, matchEOL_iff] at h
        rcases h with h | h <;> simp at h
  · rintro ⟨build, nl, hb, hnl, rfl⟩
    cases build with
    | none =>
      rcases hnl with rfl | rfl <;> decide
    | some b =>
      obtain ⟨hbne, hbdig⟩ := hb b rfl
      cases b with
      | nil => exact absurd rfl hbne
      | cons x xs =>
        have hx : isDigitCh x = true := hbdig x (by simp)
        have hdrop : (xs ++ nl).dropWhile isDigitCh = nl :=
          dropWhile_append_of_forall isDigitCh xs nl
            (fun c hc => hbdig c (by simp [hc]))
            (fun c cs hcs => by
              rcases hnl with rfl | rfl
              · exact absurd hcs (by simp)
              · injection hcs with h1 _
                subst h1
                decide)
        show matchBuildTail (('-' :: x :: xs) ++ nl) = true
        rw [List.cons_append, List.cons_append,
          show matchBuildTail ('-' :: x :: (xs ++ nl)) =
            (if '-' = '-' && isDigitCh x then matchEOL ((xs ++ nl).dropWhile isDigitCh)
             else matchEOL ('-' :: x :: (xs ++ nl))) from rfl,
          if_pos (by simp [hx]), hdrop, matchEOL_iff]
        exact hnl

/-- The core matcher accepts exactly the lists of CoreShape. -/
theorem matchVersionCore_iff (l : List Char) :
    matchVersionCore l = true ↔ CoreShape l := by
  constructor
  · intro h
    cases hm1 : matchDigits1 l with
    | none => simp [matchVersionCore, hm1] at h
    | some l1 =>
      simp only [matchVersionCore, hm1] at h
      cases hc1 : matchChar '.' l1 with
      | none => simp [hc1] at h
      | some l2 =>
        simp only [hc1] at h
        cases hm2 : matchDigits1 l2 with
        | none => simp [hm2] at h
        | some l3 =>
          simp only [hm2] at h
          cases hc2 : matchChar '.' l3 with
          | none => simp [hc2] at h
          | some l4 =>
            simp only [hc2] at h
            cases l4 with
            | nil => simp at h
            | cons p l5 =>
              simp only [] at h
              by_cases hp : isDigitCh p = true
              · rw [if_pos hp] at h
                obtain ⟨maj, hmajD, hleq, _⟩ := (matchDigits1_eq_some l l1).mp hm1
                have hl1 : l1 = '.' :: l2 := (matchChar_eq_some '.' l1 l2).mp hc1
                obtain ⟨minr, hminD, hl2eq, _⟩ := (matchDigits1_eq_some l2 l3).mp hm2
                have hl3 : l3 = '.' :: (p :: l5) :=
                  (matchChar_eq_some '.' l3 (p :: l5)).mp hc2
                obtain ⟨build, nl, hbuild, hnl, hl5⟩ := (matchBuildTail_iff l5).mp h
                refine ⟨maj, minr, p, build, nl, hmajD, hminD, hp, hbuild, hnl, ?_⟩
                rw [hleq, hl1, hl2eq, hl3, hl5]
              · rw [if_neg hp] at h
                exact absurd h (by simp)
  · rintro ⟨maj, minr, p, build, nl, hmajD, hminD, hp, hbuild, hnl, rfl⟩
    have h1 : matchDigits1 (maj ++ '.' :: (minr ++ '.' :: p :: (buildChars build ++ nl)))
        = some ('.' :: (minr ++ '.' :: p :: (buildChars build ++ nl))) :=
      (matchDigits1_eq_some _ _).mpr ⟨maj, hmajD, rfl, fun c cs hcs => by
        injection hcs with h1 _
        subst h1
        decide⟩
    have h3 : matchDigits1 (minr ++ '.' :: p :: (buildChars build ++ nl))
        = some ('.' :: p :: (buildChars build ++ nl)) :=
      (matchDigits1_eq_some _ _).mpr ⟨minr, hminD, rfl, fun c cs hcs => by
        injection hcs with h1 _
        subst h1
        decide⟩
    have h5 : matchBuildTail (buildChars build ++ nl) = true :=
      (matchBuildTail_iff _).mpr ⟨build, nl, hbuild, hnl, rfl⟩
    simp [matchVersionCore, h1, h3, matchChar, hp, h5]

/-- A core-shaped list starts with a digit. -/
theorem CoreShape_head (l : List Char) (h : CoreShape l) :
    ∃ c cs, l = c :: cs ∧ isDigitCh c = true := by
  obtain ⟨maj, minr, p, build, nl, ⟨hne, hdig⟩, _, _, _, _, heq⟩ := h
  cases maj with
  | nil => exact absurd rfl hne
  | cons m ms =>
    exact ⟨m, ms ++ '.' :: (minr ++ '.' :: p :: (buildChars build ++ nl)),
      by simpa using heq, hdig m (by simp)⟩

/-- The source regex accepts exactly the strings of ReleaseShape. -/
theorem releaseVersionMatch_iff (v : String) :
    releaseVersionMatch v = true ↔ ReleaseShape v := by
  unfold releaseVersionMatch ReleaseShape
  cases hv : v.data with
  | nil =>
    constructor
    · intro h
      exact absurd h (by decide)
    · rintro ⟨optV, core, hcore, heq⟩
      obtain ⟨c, cs, rfl, _⟩ := CoreShape_head core hcore
      cases optV <;> simp at heq
  | cons c rest =>
    by_cases hc : c = 'v'
    · subst hc
      simp only [if_true]
      rw [matchVersionCore_iff]
      constructor
      · intro h
        exact ⟨true, rest, h, rfl⟩
      · rintro ⟨optV, core, hcore, heq⟩
        cases optV with
        | true =>
          injection heq with _ h2
          subst h2
          exact hcore
        | false =>
          obtain ⟨d, ds, rfl, hdig⟩ := CoreShape_head core hcore
          injection heq with h1 _
          rw [← h1] at hdig
          exact absurd hdig (by decide)
    · simp only []
      rw [if_neg hc, matchVersionCore_iff]
      constructor
      · intro h
        exact ⟨false, c :: rest, h, rfl⟩
      · rintro ⟨optV, core, hcore, heq⟩
        cases optV with
        | true =>
          injection heq with h1 _
          exact absurd h1 hc
        | false =>
          rw [show (cond false ['v'] [] : List Char) ++ core = core from rfl] at heq
          rw [heq]
          exact hcore

/-- C4 counterexample: the version "v1.2.10" matches the claimed
pattern (patch component "10") yet the code classifies it as ci, because
the source regex allows exactly one patch digit; and "v1.2.3" followed
by a newline fails the claimed entire-string anchoring yet the code
classifies it as release, because Python's $ also matches just before a
trailing newline. -/
theorem C4_counterexample :
    claimedReleasePattern "v1.2.10" = true ∧
    (resolve "capv" "v1.2.10").upload_dir = "ci" ∧
    claimedReleasePattern "v1.2.3\n" = false ∧
    (resolve "capv" "v1.2.3\n").upload_dir = "release" := by
  refine ⟨by decide, by decide, by decide, by decide⟩

/-- C4 amended: classification is release exactly when the version
string is an optional leading v, one or more digits, a dot, one or more
digits, a dot, exactly one digit, optionally a dash and one or more
digits, ending there or followed by one trailing newline; every other
version string classifies as ci, with no failure mode. -/
theorem C4_classification (name version : String) :
    ((resolve name version).upload_dir = "release" ↔ ReleaseShape version) ∧
    ((resolve name version).upload_dir = "release" ∨
      (resolve name version).upload_dir = "ci") := by
  have hud : (resolve name version).upload_dir =
      if releaseVersionMatch version then "release" else "ci" := rfl
  rw [hud]
  constructor
  · constructor
    · intro h
      by_cases hrv : releaseVersionMatch version = true
      · exact (releaseVersionMatch_iff version).mp hrv
      · rw [if_neg hrv] at h
        exact absurd h (by decide)
    · intro h
      rw [if_pos ((releaseVersionMatch_iff version).mpr h)]
  · by_cases hrv : releaseVersionMatch version = true
    · rw [if_pos hrv]
      exact Or.inl rfl
    · rw [if_neg hrv]
      exact Or.inr rfl

end ImageUpload
